import Mathlib

/-!
Verification of the smart-proxy core against its specification.

The development shallowly embeds the Rust sources:
  * `src/tracker.rs`   — `RunwayState`, `TargetMetrics`, `TargetAccessibilityTracker`
  * `src/routing.rs`   — `RoutingEngine::select_by_latency`, `select_round_robin`
  * `src/validator.rs` — `SuccessValidator::validate_http`

Machine floats (`f64`) are embedded as rationals `ℚ`; `std::time::Duration`
values are carried as rational second counts and `std::time::Instant`
timestamps as natural numbers supplied by the caller (`now`).  The tracker's
`DashMap` state is embedded as an event history: each inner cell is the fold
of its update events over the freshly created metrics record, exactly the
read-modify-write performed by `TargetAccessibilityTracker::update`.
-/

/-- `RunwayState` from `src/runway.rs`. -/
inductive RunwayState where
  | Unknown
  | Accessible
  | PartiallyAccessible
  | Inaccessible
  | Testing
deriving DecidableEq, Repr

/-- `TargetMetrics` from `src/tracker.rs`. -/
structure TargetMetrics where
  target : String
  runway_id : String
  state : RunwayState
  network_success_count : ℕ
  user_success_count : ℕ
  failure_count : ℕ
  partial_success_count : ℕ
  total_attempts : ℕ
  avg_response_time : ℚ
  last_success_time : Option ℕ
  last_failure_time : Option ℕ
  consecutive_failures : ℕ
  recovery_count : ℕ
  success_rate : ℚ
  recent_attempts : List Bool
deriving DecidableEq, Repr

/-- `TargetMetrics::new` from `src/tracker.rs`. -/
def TargetMetrics.new (target runway_id : String) : TargetMetrics where
  target := target
  runway_id := runway_id
  state := RunwayState.Unknown
  network_success_count := 0
  user_success_count := 0
  failure_count := 0
  partial_success_count := 0
  total_attempts := 0
  avg_response_time := 0
  last_success_time := none
  last_failure_time := none
  consecutive_failures := 0
  recovery_count := 0
  success_rate := 0
  recent_attempts := []

/-- `TargetMetrics::update_success_rate` from `src/tracker.rs` (the `window`
argument is unused by the source as well). -/
def TargetMetrics.update_success_rate (m : TargetMetrics) (window : ℕ) : TargetMetrics :=
  if m.recent_attempts.isEmpty then
    { m with success_rate := 0 }
  else
    { m with success_rate :=
        (m.recent_attempts.countP (fun b => b) : ℚ) / (m.recent_attempts.length : ℚ) }

namespace TargetAccessibilityTracker

/-- The per-cell body of `TargetAccessibilityTracker::update` from
`src/tracker.rs`: the read-modify-write applied to the `(target, runway_id)`
cell.  `success_rate_window` is the tracker's configuration field,
`response_time` is the duration in seconds and `now` the current instant. -/
def update (success_rate_window : ℕ) (m : TargetMetrics)
    (network_success user_success : Bool) (response_time : ℚ) (now : ℕ) : TargetMetrics :=
  let m1 : TargetMetrics := { m with total_attempts := m.total_attempts + 1 }
  -- Update recent attempts
  let ra0 : List Bool := m1.recent_attempts ++ [user_success]
  let ra : List Bool := if success_rate_window < ra0.length then ra0.tail else ra0
  let m2 : TargetMetrics := { m1 with recent_attempts := ra }
  let m3 : TargetMetrics :=
    if network_success && user_success then
      let ms : TargetMetrics :=
        { m2 with
          network_success_count := m2.network_success_count + 1
          user_success_count := m2.user_success_count + 1
          state := RunwayState.Accessible
          last_success_time := some now
          consecutive_failures := 0 }
      -- Update average response time
      if ms.avg_response_time = 0 then
        { ms with avg_response_time := response_time }
      else
        { ms with avg_response_time :=
            ms.avg_response_time * (7 / 10) + response_time * (3 / 10) }
    else if network_success && !user_success then
      { m2 with
        network_success_count := m2.network_success_count + 1
        partial_success_count := m2.partial_success_count + 1
        state := RunwayState.PartiallyAccessible }
    else
      let mf : TargetMetrics :=
        { m2 with
          failure_count := m2.failure_count + 1
          last_failure_time := some now
          consecutive_failures := m2.consecutive_failures + 1 }
      if 3 < mf.consecutive_failures then
        { mf with state := RunwayState.Inaccessible }
      else
        mf
  -- Check for recovery
  let m4 : TargetMetrics :=
    if m3.state = RunwayState.Inaccessible ∧ user_success = true then
      { m3 with
        recovery_count := m3.recovery_count + 1
        state := RunwayState.Accessible }
    else
      m3
  m4.update_success_rate success_rate_window

end TargetAccessibilityTracker

/-- One call to `TargetAccessibilityTracker::update` on a fixed cell. -/
structure UpdateEvent where
  network_success : Bool
  user_success : Bool
  response_time : ℚ
  now : ℕ
deriving DecidableEq, Repr

/-- Folding a sequence of update calls over one `(target, runway)` cell. -/
def applyUpdates (window : ℕ) (m : TargetMetrics) (es : List UpdateEvent) : TargetMetrics :=
  es.foldl
    (fun acc e =>
      TargetAccessibilityTracker.update window acc
        e.network_success e.user_success e.response_time e.now)
    m

/-- One call to `TargetAccessibilityTracker::update`, with its cell address. -/
structure TrackerEvent where
  target : String
  runway_id : String
  network_success : Bool
  user_success : Bool
  response_time : ℚ
  now : ℕ
deriving DecidableEq, Repr

/-- `TargetAccessibilityTracker::get_metrics` from `src/tracker.rs` over the
event-history embedding of the `DashMap` state: the cell exists iff some
update touched it, and then holds the fold of its updates over
`TargetMetrics::new`. -/
def trackerGetMetrics (window : ℕ) (events : List TrackerEvent)
    (target runway_id : String) : Option TargetMetrics :=
  let es := events.filter (fun e => e.target == target && e.runway_id == runway_id)
  if es.isEmpty then none
  else
    some (es.foldl
      (fun acc e =>
        TargetAccessibilityTracker.update window acc
          e.network_success e.user_success e.response_time e.now)
      (TargetMetrics.new target runway_id))

/-- `TargetAccessibilityTracker::get_target_metrics` from `src/tracker.rs`
over the event-history embedding: one entry per runway id that received an
update for `target`. -/
def trackerTargetMetrics (window : ℕ) (events : List TrackerEvent)
    (target : String) : List (String × TargetMetrics) :=
  (((events.filter (fun e => e.target == target)).map (fun e => e.runway_id)).dedup).map
    (fun r =>
      (r, ((events.filter (fun e => e.target == target && e.runway_id == r)).foldl
        (fun acc e =>
          TargetAccessibilityTracker.update window acc
            e.network_success e.user_success e.response_time e.now)
        (TargetMetrics.new target r))))

/-- `TargetAccessibilityTracker::get_accessible_runways` from
`src/tracker.rs`, over a snapshot of the inner map's `(runway_id, metrics)`
entries; `success_rate_threshold` is the tracker's configuration field. -/
def get_accessible_runways (success_rate_threshold : ℚ)
    (entries : List (String × TargetMetrics)) : List String :=
  entries.filterMap (fun entry =>
    match entry.2.state with
    | RunwayState.Accessible => some entry.1
    | RunwayState.PartiallyAccessible =>
        if success_rate_threshold ≤ entry.2.success_rate then some entry.1 else none
    | _ => none)

namespace RoutingEngine

/-- The loop body of `RoutingEngine::select_by_latency` from
`src/routing.rs`; `best` carries the current best `(runway, time)` pair and
`get_metrics` is the tracker lookup for the fixed target. -/
def latencyStep (get_metrics : String → Option TargetMetrics)
    (best : Option (String × ℚ)) (r : String) : Option (String × ℚ) :=
  match get_metrics r with
  | some metrics =>
      if 0 < metrics.avg_response_time then
        let is_better : Bool :=
          match best with
          | some (_, time) => decide (metrics.avg_response_time < time)
          | none => true
        if is_better then some (r, metrics.avg_response_time) else best
      else best
  | none => best

/-- `RoutingEngine::select_by_latency` from `src/routing.rs`, over the
candidate runway ids (the source works on `&Runway` values and returns a
clone; only the id identifies a runway here). -/
def select_by_latency (get_metrics : String → Option TargetMetrics)
    (runways : List String) : Option String :=
  match runways.foldl (latencyStep get_metrics) none with
  | some (r, _) => some r
  | none => runways.head?

/-- `RoutingEngine::select_round_robin` from `src/routing.rs` for one
target: given the stored cursor (`0` when the target is absent from
`round_robin_index`), returns the selected runway and the written-back
cursor.  The source returns early with `None` on an empty candidate list,
leaving the cursor untouched. -/
def select_round_robin (runways : List String) (index : ℕ) : Option String × ℕ :=
  if h : runways.length = 0 then (none, index)
  else
    (some (runways.get ⟨index % runways.length, Nat.mod_lt _ (Nat.pos_of_ne_zero h)⟩),
     (index + 1) % runways.length)

/-- Iterating `select_round_robin` for one target: `rrCalls runways c k`
performs `k` calls starting from cursor `c` and returns the final cursor
together with the list of selections in call order. -/
def rrCalls (runways : List String) : ℕ → ℕ → ℕ × List (Option String)
  | index, 0 => (index, [])
  | index, k + 1 =>
      let c := select_round_robin runways index
      let rest := rrCalls runways c.2 k
      (rest.1, c.1 :: rest.2)

end RoutingEngine

namespace SuccessValidator

/-- `startsWithSeq hay pat` is Rust's `str::starts_with` on character
sequences. -/
def startsWithSeq : List Char → List Char → Bool
  | _, [] => true
  | [], _ :: _ => false
  | a :: as, b :: bs => a == b && startsWithSeq as bs

/-- `containsSeq hay pat` is Rust's `str::contains` on character
sequences: some suffix of `hay` starts with `pat`. -/
def containsSeq : List Char → List Char → Bool
  | [], pat => pat.isEmpty
  | a :: as, pat => startsWithSeq (a :: as) pat || containsSeq as pat

/-- The `error_patterns` array from `SuccessValidator::validate_http` in
`src/validator.rs`. -/
def error_patterns : List (List Char) :=
  ["blocked".data, "forbidden".data, "access denied".data,
   "error 403".data, "error 404".data]

/-- `SuccessValidator::validate_http` from `src/validator.rs`.  The body is
embedded as its character sequence (`String::from_utf8_lossy` of the byte
body) and Rust's `str::to_lowercase` as the character-wise `Char.toLower`
map, which agrees with it on the ASCII texts the patterns consist of. -/
def validate_http (status : ℕ) (body : List Char) : Bool × Bool :=
  let network_success : Bool := decide (200 ≤ status) && decide (status < 400)
  if !network_success then (false, false)
  else
    let user_success : Bool :=
      if !body.isEmpty then
        let content_str := body.map Char.toLower
        !(error_patterns.any (fun pat => containsSeq content_str pat))
      else false
    (network_success, user_success)

end SuccessValidator

/-! ### Field-wise characterisation of `TargetAccessibilityTracker::update` -/

namespace TargetAccessibilityTracker

theorem update_recent_attempts (W : ℕ) (m : TargetMetrics) (ns us : Bool) (rt : ℚ) (now : ℕ) :
    (update W m ns us rt now).recent_attempts =
      if W < m.recent_attempts.length + 1 then (m.recent_attempts ++ [us]).tail
      else m.recent_attempts ++ [us] := by
  cases ns <;> cases us <;>
    simp only [update, TargetMetrics.update_success_rate, List.length_append,
      List.length_cons, List.length_nil, Bool.and_self, Bool.and_false, Bool.and_true,
      Bool.not_true, Bool.not_false, Bool.false_and, Bool.true_and, if_true, if_false] <;>
    repeat' split <;> simp_all

theorem update_total_attempts (W : ℕ) (m : TargetMetrics) (ns us : Bool) (rt : ℚ) (now : ℕ) :
    (update W m ns us rt now).total_attempts = m.total_attempts + 1 := by
  cases ns <;> cases us <;>
    simp only [update, TargetMetrics.update_success_rate, Bool.and_self, Bool.and_false,
      Bool.and_true, Bool.false_and, Bool.true_and, Bool.not_false, Bool.not_true,
      Bool.false_eq_true, if_true, if_false, ite_true, ite_false] <;>
    repeat' split <;> simp_all

theorem update_network_count (W : ℕ) (m : TargetMetrics) (ns us : Bool) (rt : ℚ) (now : ℕ) :
    (update W m ns us rt now).network_success_count =
      m.network_success_count + (if ns then 1 else 0) := by
  cases ns <;> cases us <;>
    simp only [update, TargetMetrics.update_success_rate, Bool.and_self, Bool.and_false,
      Bool.and_true, Bool.false_and, Bool.true_and, Bool.not_false, Bool.not_true,
      Bool.false_eq_true, if_true, if_false, ite_true, ite_false] <;>
    repeat' split <;> simp_all

theorem update_user_count (W : ℕ) (m : TargetMetrics) (ns us : Bool) (rt : ℚ) (now : ℕ) :
    (update W m ns us rt now).user_success_count =
      m.user_success_count + (if ns && us then 1 else 0) := by
  cases ns <;> cases us <;>
    simp only [update, TargetMetrics.update_success_rate, Bool.and_self, Bool.and_false,
      Bool.and_true, Bool.false_and, Bool.true_and, Bool.not_false, Bool.not_true,
      Bool.false_eq_true, if_true, if_false, ite_true, ite_false] <;>
    repeat' split <;> simp_all

theorem update_failure_count (W : ℕ) (m : TargetMetrics) (ns us : Bool) (rt : ℚ) (now : ℕ) :
    (update W m ns us rt now).failure_count =
      m.failure_count + (if ns then 0 else 1) := by
  cases ns <;> cases us <;>
    simp only [update, TargetMetrics.update_success_rate, Bool.and_self, Bool.and_false,
      Bool.and_true, Bool.false_and, Bool.true_and, Bool.not_false, Bool.not_true,
      Bool.false_eq_true, if_true, if_false, ite_true, ite_false] <;>
    repeat' split <;> simp_all

theorem update_partial_count (W : ℕ) (m : TargetMetrics) (ns us : Bool) (rt : ℚ) (now : ℕ) :
    (update W m ns us rt now).partial_success_count =
      m.partial_success_count + (if ns && !us then 1 else 0) := by
  cases ns <;> cases us <;>
    simp only [update, TargetMetrics.update_success_rate, Bool.and_self, Bool.and_false,
      Bool.and_true, Bool.false_and, Bool.true_and, Bool.not_false, Bool.not_true,
      Bool.false_eq_true, if_true, if_false, ite_true, ite_false] <;>
    repeat' split <;> simp_all

theorem update_consec (W : ℕ) (m : TargetMetrics) (ns us : Bool) (rt : ℚ) (now : ℕ) :
    (update W m ns us rt now).consecutive_failures =
      if ns && us then 0 else if ns then m.consecutive_failures
      else m.consecutive_failures + 1 := by
  cases ns <;> cases us <;>
    simp only [update, TargetMetrics.update_success_rate, Bool.and_self, Bool.and_false,
      Bool.and_true, Bool.false_and, Bool.true_and, Bool.not_false, Bool.not_true,
      Bool.false_eq_true, if_true, if_false, ite_true, ite_false] <;>
    repeat' split <;> simp_all

theorem ite_state (c : Prop) [Decidable c] (a b : TargetMetrics) :
    (if c then a else b).state = if c then a.state else b.state := by split <;> rfl

theorem ite_recent (c : Prop) [Decidable c] (a b : TargetMetrics) :
    (if c then a else b).recent_attempts =
      if c then a.recent_attempts else b.recent_attempts := by split <;> rfl

theorem ite_rate (c : Prop) [Decidable c] (a b : TargetMetrics) :
    (if c then a else b).success_rate =
      if c then a.success_rate else b.success_rate := by split <;> rfl

theorem update_rate_eq (W : ℕ) (m : TargetMetrics) (ns us : Bool) (rt : ℚ) (now : ℕ) :
    (update W m ns us rt now).success_rate =
      if (update W m ns us rt now).recent_attempts.isEmpty then 0
      else ((update W m ns us rt now).recent_attempts.countP (fun b => b) : ℚ)
            / ((update W m ns us rt now).recent_attempts.length : ℚ) := by
  cases ns <;> cases us <;>
    simp only [update, TargetMetrics.update_success_rate, Bool.and_self, Bool.and_false,
      Bool.and_true, Bool.false_and, Bool.true_and, Bool.not_false, Bool.not_true,
      Bool.false_eq_true, if_true, if_false, ite_true, ite_false,
      ite_state, ite_recent, ite_rate, ite_self] <;>
    repeat' split <;> simp_all

theorem update_state_cases (W : ℕ) (m : TargetMetrics) (ns us : Bool) (rt : ℚ) (now : ℕ) :
    (update W m ns us rt now).state = RunwayState.Accessible ∨
    (update W m ns us rt now).state = RunwayState.PartiallyAccessible ∨
    (update W m ns us rt now).state = RunwayState.Inaccessible ∨
    (update W m ns us rt now).state = m.state := by
  cases ns <;> cases us <;>
    simp only [update, TargetMetrics.update_success_rate, Bool.and_self, Bool.and_false,
      Bool.and_true, Bool.false_and, Bool.true_and, Bool.not_false, Bool.not_true,
      Bool.false_eq_true, if_true, if_false, ite_true, ite_false,
      ite_state, ite_recent, ite_rate, ite_self] <;>
    (repeat' split <;> simp_all) <;> tauto

theorem update_counter_inv (W : ℕ) (m : TargetMetrics) (ns us : Bool) (rt : ℚ) (now : ℕ)
    (h1 : m.total_attempts = m.failure_count + m.network_success_count)
    (h2 : m.network_success_count = m.user_success_count + m.partial_success_count) :
    (update W m ns us rt now).total_attempts =
        (update W m ns us rt now).failure_count + (update W m ns us rt now).network_success_count
    ∧ (update W m ns us rt now).network_success_count =
        (update W m ns us rt now).user_success_count
          + (update W m ns us rt now).partial_success_count := by
  rw [update_total_attempts, update_network_count, update_user_count,
    update_failure_count, update_partial_count]
  cases ns <;> cases us <;> simp <;> omega

theorem fold_counter_inv (W : ℕ) : ∀ (es : List UpdateEvent) (m : TargetMetrics),
    m.total_attempts = m.failure_count + m.network_success_count →
    m.network_success_count = m.user_success_count + m.partial_success_count →
    (applyUpdates W m es).total_attempts =
        (applyUpdates W m es).failure_count + (applyUpdates W m es).network_success_count
    ∧ (applyUpdates W m es).network_success_count =
        (applyUpdates W m es).user_success_count
          + (applyUpdates W m es).partial_success_count := by
  intro es
  induction es with
  | nil => intro m h1 h2; exact ⟨h1, h2⟩
  | cons e es ih =>
      intro m h1 h2
      have h := update_counter_inv W m e.network_success e.user_success
        e.response_time e.now h1 h2
      exact ih _ h.1 h.2

theorem update_state_ne_testing (W : ℕ) (m : TargetMetrics) (ns us : Bool) (rt : ℚ) (now : ℕ)
    (h : m.state ≠ RunwayState.Testing) :
    (update W m ns us rt now).state ≠ RunwayState.Testing := by
  rcases update_state_cases W m ns us rt now with hc | hc | hc | hc <;> rw [hc] <;> simp_all

theorem trackerFold_ne_testing (W : ℕ) : ∀ (es : List TrackerEvent) (m : TargetMetrics),
    m.state ≠ RunwayState.Testing →
    (es.foldl
      (fun acc e => update W acc e.network_success e.user_success e.response_time e.now)
      m).state ≠ RunwayState.Testing := by
  intro es
  induction es with
  | nil => intro m h; exact h
  | cons e es ih =>
      intro m h
      exact ih _ (update_state_ne_testing W m e.network_success e.user_success
        e.response_time e.now h)

end TargetAccessibilityTracker

/-- The §8 "State transitions" scenario: full success, four failures, then a
full success, starting from fresh metrics with the default window. -/
def c1Events : List UpdateEvent :=
  [⟨true, true, 1, 0⟩, ⟨false, false, 1, 1⟩, ⟨false, false, 1, 2⟩,
   ⟨false, false, 1, 3⟩, ⟨false, false, 1, 4⟩, ⟨true, true, 1, 5⟩]

/-- C1: evaluation of `TargetAccessibilityTracker::update` on the claim's
scenario.  After the first five events the metrics are Inaccessible with
`consecutive_failures = 4`; applying the final full success yields state
Accessible and `consecutive_failures = 0`, but `recovery_count = 0` rather
than the claimed 1: the recovery check in the source reads `metrics.state`
after the full-success branch has already overwritten it with `Accessible`,
so the claimed increment never happens. -/
theorem c1_recovery_scenario :
    (applyUpdates 10 (TargetMetrics.new "t" "r") (c1Events.take 5)).state
        = RunwayState.Inaccessible
    ∧ (applyUpdates 10 (TargetMetrics.new "t" "r") (c1Events.take 5)).consecutive_failures = 4
    ∧ (applyUpdates 10 (TargetMetrics.new "t" "r") c1Events).state = RunwayState.Accessible
    ∧ (applyUpdates 10 (TargetMetrics.new "t" "r") c1Events).consecutive_failures = 0
    ∧ (applyUpdates 10 (TargetMetrics.new "t" "r") c1Events).recovery_count = 0 := by
  decide

/-- C2, counterexample: an update with `user_success = true` but
`network_success = false` takes the failure branch of
`TargetAccessibilityTracker::update` and leaves `consecutive_failures = 1`,
so the claim's quantification over every `network_success` flag fails. -/
theorem c2_consec_counterexample :
    ¬ ((TargetAccessibilityTracker.update 10 (TargetMetrics.new "t" "r")
          false true 1 0).consecutive_failures = 0) := by
  decide

/-- C2, amended: after `update` with `network_success = true` and
`user_success = true`, `consecutive_failures = 0` for every prior metrics
record. -/
theorem c2_consec_amended (W : ℕ) (m : TargetMetrics) (rt : ℚ) (now : ℕ) :
    (TargetAccessibilityTracker.update W m true true rt now).consecutive_failures = 0 := by
  have h := TargetAccessibilityTracker.update_consec W m true true rt now
  simpa using h

/-- C4: starting from fresh metrics, after any sequence of update calls the
counters satisfy `total_attempts = failure_count + network_success_count`
and `network_success_count = user_success_count + partial_success_count`
(full successes are counted in `user_success_count`). -/
theorem c4_counter_invariants (W : ℕ) (t r : String) (es : List UpdateEvent) :
    (applyUpdates W (TargetMetrics.new t r) es).total_attempts =
        (applyUpdates W (TargetMetrics.new t r) es).failure_count
          + (applyUpdates W (TargetMetrics.new t r) es).network_success_count
    ∧ (applyUpdates W (TargetMetrics.new t r) es).network_success_count =
        (applyUpdates W (TargetMetrics.new t r) es).user_success_count
          + (applyUpdates W (TargetMetrics.new t r) es).partial_success_count :=
  TargetAccessibilityTracker.fold_counter_inv W es (TargetMetrics.new t r) rfl rfl

/-- C10: through the tracker's public interface the `Testing` state is
unreachable: records are created `Unknown` and no branch of `update` ever
assigns `Testing`, so neither `get_metrics` nor `get_target_metrics` ever
returns a metrics record in state `Testing`. -/
theorem c10_testing_unreachable :
    (∀ (W : ℕ) (evs : List TrackerEvent) (t r : String),
        (trackerGetMetrics W evs t r).map TargetMetrics.state ≠ some RunwayState.Testing)
    ∧ (∀ (W : ℕ) (evs : List TrackerEvent) (t : String) (p : String × TargetMetrics),
        p ∈ trackerTargetMetrics W evs t → p.2.state ≠ RunwayState.Testing) := by
  constructor
  · intro W evs t r
    by_cases h : (List.filter (fun e => e.target == t && e.runway_id == r) evs).isEmpty <;>
      simp [trackerGetMetrics, h]
    exact TargetAccessibilityTracker.trackerFold_ne_testing W _ (TargetMetrics.new t r)
      (by simp [TargetMetrics.new])
  · intro W evs t p hp
    unfold trackerTargetMetrics at hp
    rcases List.mem_map.mp hp with ⟨rid, hrid, hpe⟩
    subst hpe
    exact TargetAccessibilityTracker.trackerFold_ne_testing W _ (TargetMetrics.new t rid)
      (by simp [TargetMetrics.new])

/-- C10 witness: the `get_target_metrics` conjunct applied at a one-event
history. -/
theorem c10_testing_unreachable_witness :
    (("r", TargetAccessibilityTracker.update 10 (TargetMetrics.new "t" "r") true true 1 0)
        ∈ trackerTargetMetrics 10 [⟨"t", "r", true, true, 1, 0⟩] "t")
    ∧ (TargetAccessibilityTracker.update 10 (TargetMetrics.new "t" "r") true true 1 0).state
        ≠ RunwayState.Testing :=
  ⟨by rw [show trackerTargetMetrics 10 [⟨"t", "r", true, true, 1, 0⟩] "t"
        = [("r", TargetAccessibilityTracker.update 10 (TargetMetrics.new "t" "r") true true 1 0)]
      from rfl]; exact List.mem_singleton.mpr rfl,
   c10_testing_unreachable.2 10 [⟨"t", "r", true, true, 1, 0⟩] "t"
     ("r", TargetAccessibilityTracker.update 10 (TargetMetrics.new "t" "r") true true 1 0)
     (by rw [show trackerTargetMetrics 10 [⟨"t", "r", true, true, 1, 0⟩] "t"
          = [("r", TargetAccessibilityTracker.update 10 (TargetMetrics.new "t" "r") true true 1 0)]
        from rfl]; exact List.mem_singleton.mpr rfl)⟩

/-- C3: `get_accessible_runways` returns exactly the runway ids whose
metrics are `Accessible`, or `PartiallyAccessible` with
`success_rate ≥ success_rate_threshold`; every returned id is backed by a
metrics record whose state is none of `Unknown`, `Testing`,
`Inaccessible`. -/
theorem c3_accessible_filter :
    (∀ (th : ℚ) (entries : List (String × TargetMetrics)) (r : String),
        r ∈ get_accessible_runways th entries ↔
          ∃ m, (r, m) ∈ entries ∧
            (m.state = RunwayState.Accessible ∨
             (m.state = RunwayState.PartiallyAccessible ∧ th ≤ m.success_rate)))
    ∧ (∀ (th : ℚ) (entries : List (String × TargetMetrics)) (r : String),
        r ∈ get_accessible_runways th entries →
          ∃ m, (r, m) ∈ entries ∧ m.state ≠ RunwayState.Unknown ∧
            m.state ≠ RunwayState.Testing ∧ m.state ≠ RunwayState.Inaccessible) := by
  have key : ∀ (th : ℚ) (entries : List (String × TargetMetrics)) (r : String),
      r ∈ get_accessible_runways th entries ↔
        ∃ m, (r, m) ∈ entries ∧
          (m.state = RunwayState.Accessible ∨
           (m.state = RunwayState.PartiallyAccessible ∧ th ≤ m.success_rate)) := by
    intro th entries r
    constructor
    · intro hr
      rcases List.mem_filterMap.mp hr with ⟨a, ha, hfa⟩
      rcases hstate : a.2.state with _ | _ | _ | _ | _ <;> rw [hstate] at hfa <;>
        simp only at hfa
      case Accessible =>
        refine ⟨a.2, ?_, Or.inl hstate⟩
        have : a.1 = r := Option.some.inj hfa
        rwa [← this, Prod.mk.eta]
      case PartiallyAccessible =>
        by_cases hth : th ≤ a.2.success_rate
        · rw [if_pos hth] at hfa
          refine ⟨a.2, ?_, Or.inr ⟨hstate, hth⟩⟩
          have : a.1 = r := Option.some.inj hfa
          rwa [← this, Prod.mk.eta]
        · rw [if_neg hth] at hfa
          exact absurd hfa (Option.noConfusion)
      all_goals exact absurd hfa (Option.noConfusion)
    · intro ⟨m, hm, hcond⟩
      refine List.mem_filterMap.mpr ⟨(r, m), hm, ?_⟩
      rcases hcond with hs | ⟨hs, hth⟩
      · simp only [hs]
      · simp only [hs]
        rw [if_pos hth]
  refine ⟨key, ?_⟩
  intro th entries r hr
  rcases (key th entries r).mp hr with ⟨m, hm, hcond⟩
  refine ⟨m, hm, ?_, ?_, ?_⟩ <;> rcases hcond with hs | ⟨hs, _⟩ <;> rw [hs] <;> simp

/-- A fresh metrics record in state `Accessible`, used as a concrete
snapshot entry. -/
def mAccessible : TargetMetrics :=
  { TargetMetrics.new "t" "r1" with state := RunwayState.Accessible }

/-- C3 witness: both conjuncts applied at a concrete one-entry snapshot. -/
theorem c3_accessible_filter_witness :
    ("r1" ∈ get_accessible_runways (1 / 2) [("r1", mAccessible)] ↔
      ∃ m, ("r1", m) ∈ [("r1", mAccessible)] ∧
        (m.state = RunwayState.Accessible ∨
         (m.state = RunwayState.PartiallyAccessible ∧ (1 / 2 : ℚ) ≤ m.success_rate)))
    ∧ (∃ m, ("r1", m) ∈ [("r1", mAccessible)] ∧ m.state ≠ RunwayState.Unknown ∧
        m.state ≠ RunwayState.Testing ∧ m.state ≠ RunwayState.Inaccessible) :=
  ⟨c3_accessible_filter.1 (1 / 2) [("r1", mAccessible)] "r1",
   c3_accessible_filter.2 (1 / 2) [("r1", mAccessible)] "r1" (by decide)⟩

namespace TargetAccessibilityTracker

theorem fold_recent (W : ℕ) : ∀ (es : List UpdateEvent) (m : TargetMetrics),
    m.recent_attempts.length ≤ W →
    (applyUpdates W m es).recent_attempts
      = (m.recent_attempts ++ es.map UpdateEvent.user_success).drop
          ((m.recent_attempts.length + es.length) - W) := by
  intro es
  induction es with
  | nil =>
      intro m h
      simp [applyUpdates, Nat.sub_eq_zero_of_le h]
  | cons e es ih =>
      intro m h
      have hstep : applyUpdates W m (e :: es)
          = applyUpdates W (update W m e.network_success e.user_success
              e.response_time e.now) es := rfl
      have hra := update_recent_attempts W m e.network_success e.user_success
        e.response_time e.now
      by_cases hW : W < m.recent_attempts.length + 1
      · have hlen : m.recent_attempts.length = W := by omega
        rw [if_pos hW] at hra
        have hlen' : (update W m e.network_success e.user_success
            e.response_time e.now).recent_attempts.length ≤ W := by
          rw [hra, List.length_tail, List.length_append]
          simp [hlen]
        rw [hstep, ih _ hlen', hra]
        simp only [List.length_tail, List.length_append, List.length_cons,
          List.length_nil, List.length_map]
        rw [← List.drop_one, ← List.drop_append_of_le_length (by simp), List.drop_drop]
        simp only [List.append_assoc, List.singleton_append]
        congr 1
        omega
      · rw [if_neg hW] at hra
        have hlen' : (update W m e.network_success e.user_success
            e.response_time e.now).recent_attempts.length ≤ W := by
          rw [hra, List.length_append]
          simp only [List.length_cons, List.length_nil]
          omega
        rw [hstep, ih _ hlen', hra]
        simp only [List.length_append, List.length_cons, List.length_nil,
          List.length_map, List.append_assoc, List.singleton_append]
        congr 1
        omega

theorem fold_rate (W : ℕ) (t r : String) (es : List UpdateEvent) :
    (applyUpdates W (TargetMetrics.new t r) es).success_rate =
      if (applyUpdates W (TargetMetrics.new t r) es).recent_attempts.isEmpty then 0
      else ((applyUpdates W (TargetMetrics.new t r) es).recent_attempts.countP (fun b => b) : ℚ)
            / ((applyUpdates W (TargetMetrics.new t r) es).recent_attempts.length : ℚ) := by
  rcases List.eq_nil_or_concat es with hnil | ⟨L, b, hcat⟩
  · subst hnil
    simp [applyUpdates, TargetMetrics.new]
  · subst hcat
    have hsplit : applyUpdates W (TargetMetrics.new t r) (L.concat b)
        = update W (applyUpdates W (TargetMetrics.new t r) L)
            b.network_success b.user_success b.response_time b.now := by
      rw [List.concat_eq_append]
      unfold applyUpdates
      rw [List.foldl_append]
      rfl
    rw [hsplit]
    exact update_rate_eq W _ _ _ _ _

end TargetAccessibilityTracker

/-- The §8 "Success-rate window" scenario: user_success sequence
`[T, T, T, F]` with window `W = 3`. -/
def c5Events : List UpdateEvent :=
  [⟨true, true, 0, 0⟩, ⟨true, true, 0, 1⟩, ⟨true, true, 0, 2⟩, ⟨false, false, 0, 3⟩]

/-- C5: from fresh metrics, `recent_attempts` is always the suffix of the
`user_success` history of length at most the configured window `W` (FIFO,
oldest entries dropped first), and after every update `success_rate` is the
fraction of `true` entries in `recent_attempts` (`0` when empty); with
`W = 3` the user_success sequence `[T,T,T,F]` leaves `[T,T,F]` and success
rate `2/3`. -/
theorem c5_window_fifo :
    (∀ (W : ℕ) (t r : String) (es : List UpdateEvent),
        (applyUpdates W (TargetMetrics.new t r) es).recent_attempts
            = (es.map UpdateEvent.user_success).drop (es.length - W)
        ∧ (applyUpdates W (TargetMetrics.new t r) es).recent_attempts.length ≤ W
        ∧ (applyUpdates W (TargetMetrics.new t r) es).success_rate =
            (if (applyUpdates W (TargetMetrics.new t r) es).recent_attempts.isEmpty then 0
             else ((applyUpdates W (TargetMetrics.new t r) es).recent_attempts.countP
                      (fun b => b) : ℚ)
                  / ((applyUpdates W (TargetMetrics.new t r) es).recent_attempts.length : ℚ)))
    ∧ ((applyUpdates 3 (TargetMetrics.new "t" "r") c5Events).recent_attempts
          = [true, true, false]
       ∧ (applyUpdates 3 (TargetMetrics.new "t" "r") c5Events).success_rate = 2 / 3) := by
  constructor
  · intro W t r es
    have hrec := TargetAccessibilityTracker.fold_recent W es (TargetMetrics.new t r)
      (by simp [TargetMetrics.new])
    have h0 : (TargetMetrics.new t r).recent_attempts = [] := rfl
    simp only [h0, List.nil_append, List.length_nil, Nat.zero_add] at hrec
    refine ⟨hrec, ?_, TargetAccessibilityTracker.fold_rate W t r es⟩
    rw [hrec, List.length_drop, List.length_map]
    omega
  · have hrec : (applyUpdates 3 (TargetMetrics.new "t" "r") c5Events).recent_attempts
        = [true, true, false] := by decide
    refine ⟨hrec, ?_⟩
    rw [TargetAccessibilityTracker.fold_rate, hrec]
    norm_num [List.countP, List.countP.go]

/-- C8: `validate_http` returns `network_success = (200 ≤ status < 400)`;
`user_success` is false whenever `network_success` is false or the body is
empty, and otherwise true iff the lowercased body contains none of the
error patterns; including the four concrete examples from the spec. -/
theorem c8_validate_http :
    (∀ (status : ℕ) (body : List Char),
        (SuccessValidator.validate_http status body).1
          = (decide (200 ≤ status) && decide (status < 400)))
    ∧ (∀ (status : ℕ) (body : List Char),
        (SuccessValidator.validate_http status body).1 = false ∨ body = [] →
          (SuccessValidator.validate_http status body).2 = false)
    ∧ (∀ (status : ℕ) (body : List Char),
        (SuccessValidator.validate_http status body).1 = true → body ≠ [] →
          ((SuccessValidator.validate_http status body).2 = true ↔
            ∀ p ∈ SuccessValidator.error_patterns,
              SuccessValidator.containsSeq (body.map Char.toLower) p = false))
    ∧ SuccessValidator.validate_http 200 "<html>access denied</html>".data = (true, false)
    ∧ SuccessValidator.validate_http 200 "ok".data = (true, true)
    ∧ SuccessValidator.validate_http 404 "anything".data = (false, false)
    ∧ SuccessValidator.validate_http 200 "".data = (true, false) := by
  refine ⟨?_, ?_, ?_, by decide, by decide, by decide, by decide⟩
  · intro status body
    unfold SuccessValidator.validate_http
    by_cases hn : (decide (200 ≤ status) && decide (status < 400)) = true <;>
      simp [hn]
  · intro status body h
    by_cases hn : (decide (200 ≤ status) && decide (status < 400)) = true
    · rcases h with h | h
      · have h1 : (SuccessValidator.validate_http status body).1 = true := by
          unfold SuccessValidator.validate_http
          simp [hn]
        simp [h1] at h
      · subst h
        unfold SuccessValidator.validate_http
        simp [hn]
    · unfold SuccessValidator.validate_http
      have hcond : status < 200 ∨ 400 ≤ status := by
        by_cases h2 : 200 ≤ status
        · exact Or.inr (by simpa [h2] using hn)
        · exact Or.inl (by omega)
      simp [hcond]
  · intro status body h1 h2
    unfold SuccessValidator.validate_http at h1 ⊢
    by_cases hn : (decide (200 ≤ status) && decide (status < 400)) = true
    · simp only [hn, Bool.not_true, if_false, List.isEmpty_eq_true, h2,
        Bool.not_false, if_true]
      simp [List.isEmpty_eq_true, h2, List.any_eq, not_or]
    · simp [hn] at h1

/-- C8 witness: the third conjunct applied at `status = 200`,
`body = "ok"`. -/
theorem c8_validate_http_witness :
    ((SuccessValidator.validate_http 200 "ok".data).2 = true ↔
      ∀ p ∈ SuccessValidator.error_patterns,
        SuccessValidator.containsSeq ("ok".data.map Char.toLower) p = false) :=
  c8_validate_http.2.2.1 200 "ok".data (by decide) (by decide)

namespace RoutingEngine

/-- The candidate has a tracked metrics record with positive average
response time (the candidates `select_by_latency` considers for `best`). -/
def PosLat (gm : String → Option TargetMetrics) (r : String) : Prop :=
  ∃ mt, gm r = some mt ∧ 0 < mt.avg_response_time

/-- The average response time of a candidate's metrics record (`0` when the
tracker has no record, in which case the candidate is never `PosLat`). -/
def avalLat (gm : String → Option TargetMetrics) (r : String) : ℚ :=
  match gm r with
  | some mt => mt.avg_response_time
  | none => 0

theorem latencyStep_not_pos (gm : String → Option TargetMetrics)
    (best : Option (String × ℚ)) (r : String) (h : ¬ PosLat gm r) :
    latencyStep gm best r = best := by
  unfold latencyStep
  cases hgm : gm r with
  | none => rfl
  | some mt =>
      have hnp : ¬ 0 < mt.avg_response_time := fun hp => h ⟨mt, hgm, hp⟩
      simp [hnp]

theorem latencyStep_pos_none (gm : String → Option TargetMetrics) (r : String)
    (mt : TargetMetrics) (hgm : gm r = some mt) (hpos : 0 < mt.avg_response_time) :
    latencyStep gm none r = some (r, mt.avg_response_time) := by
  simp [latencyStep, hgm, hpos]

theorem latencyStep_pos_lt (gm : String → Option TargetMetrics) (r b : String) (v : ℚ)
    (mt : TargetMetrics) (hgm : gm r = some mt) (hpos : 0 < mt.avg_response_time)
    (hlt : mt.avg_response_time < v) :
    latencyStep gm (some (b, v)) r = some (r, mt.avg_response_time) := by
  simp [latencyStep, hgm, hpos, hlt]

theorem latencyStep_pos_ge (gm : String → Option TargetMetrics) (r b : String) (v : ℚ)
    (mt : TargetMetrics) (hgm : gm r = some mt) (hpos : 0 < mt.avg_response_time)
    (hge : ¬ mt.avg_response_time < v) :
    latencyStep gm (some (b, v)) r = some (b, v) := by
  simp [latencyStep, hgm, hpos, hge]

theorem avalLat_eq (gm : String → Option TargetMetrics) (r : String)
    (mt : TargetMetrics) (hgm : gm r = some mt) :
    avalLat gm r = mt.avg_response_time := by
  simp [avalLat, hgm]

theorem latency_fold_none (gm : String → Option TargetMetrics) :
    ∀ (rs : List String) (best : Option (String × ℚ)),
      rs.foldl (latencyStep gm) best = none ↔
        (best = none ∧ ∀ q ∈ rs, ¬ PosLat gm q) := by
  intro rs
  induction rs with
  | nil => intro best; simp
  | cons r₀ rs ih =>
      intro best
      rw [List.foldl_cons, ih]
      constructor
      · intro ⟨hstep, hall⟩
        by_cases hp : PosLat gm r₀
        · exfalso
          rcases hp with ⟨mt, hgm, hpos⟩
          cases best with
          | none =>
              rw [latencyStep_pos_none gm r₀ mt hgm hpos] at hstep
              exact absurd hstep (by simp)
          | some bv =>
              obtain ⟨b, v⟩ := bv
              by_cases hlt : mt.avg_response_time < v
              · rw [latencyStep_pos_lt gm r₀ b v mt hgm hpos hlt] at hstep
                exact absurd hstep (by simp)
              · rw [latencyStep_pos_ge gm r₀ b v mt hgm hpos hlt] at hstep
                exact absurd hstep (by simp)
        · rw [latencyStep_not_pos gm best r₀ hp] at hstep
          exact ⟨hstep, by
            intro q hq
            rcases List.mem_cons.mp hq with hq | hq
            · subst hq; exact hp
            · exact hall q hq⟩
      · intro ⟨hbest, hall⟩
        subst hbest
        have hp : ¬ PosLat gm r₀ := hall r₀ (List.mem_cons_self r₀ rs)
        rw [latencyStep_not_pos gm none r₀ hp]
        exact ⟨rfl, fun q hq => hall q (List.mem_cons_of_mem r₀ hq)⟩

end RoutingEngine

namespace RoutingEngine

theorem latency_fold_some (gm : String → Option TargetMetrics) :
    ∀ (rs : List String) (best : Option (String × ℚ)) (r : String) (w : ℚ),
      rs.foldl (latencyStep gm) best = some (r, w) →
        (best = some (r, w) ∧ ∀ q ∈ rs, PosLat gm q → w ≤ avalLat gm q)
        ∨ (∃ l₁ l₂, rs = l₁ ++ r :: l₂ ∧ PosLat gm r ∧ avalLat gm r = w
            ∧ (∀ b v, best = some (b, v) → w < v)
            ∧ (∀ q ∈ l₁, PosLat gm q → w < avalLat gm q)
            ∧ (∀ q ∈ rs, PosLat gm q → w ≤ avalLat gm q)) := by
  intro rs
  induction rs with
  | nil =>
      intro best r w h
      simp only [List.foldl_nil] at h
      exact Or.inl ⟨h, by simp⟩
  | cons r₀ rs ih =>
      intro best r w h
      rw [List.foldl_cons] at h
      by_cases hp : PosLat gm r₀
      · obtain ⟨mt, hgm, hpos⟩ := hp
        have haval₀ : avalLat gm r₀ = mt.avg_response_time := avalLat_eq gm r₀ mt hgm
        cases best with
        | none =>
            rw [latencyStep_pos_none gm r₀ mt hgm hpos] at h
            rcases ih _ r w h with ⟨hb, hall⟩ | ⟨l₁, l₂, heq, hposr, havalr, hbest, hstrict, hle⟩
            · obtain ⟨hr, hw⟩ := Prod.mk.injEq .. ▸ Option.some.inj hb
              subst hr
              refine Or.inr ⟨[], rs, by simp, ⟨mt, hgm, hpos⟩, by rw [haval₀, hw], ?_, by simp, ?_⟩
              · intro b v hbv; exact absurd hbv (by simp)
              · intro q hq hPq
                rcases List.mem_cons.mp hq with hq | hq
                · subst hq; rw [haval₀, hw]
                · exact hall q hq hPq
            · have hwlt : w < mt.avg_response_time := hbest r₀ mt.avg_response_time rfl
              refine Or.inr ⟨r₀ :: l₁, l₂, by rw [heq]; rfl, hposr, havalr, ?_, ?_, ?_⟩
              · intro b v hbv; exact absurd hbv (by simp)
              · intro q hq hPq
                rcases List.mem_cons.mp hq with hq | hq
                · subst hq; rw [haval₀]; exact hwlt
                · exact hstrict q hq hPq
              · intro q hq hPq
                rcases List.mem_cons.mp hq with hq | hq
                · subst hq; rw [haval₀]; exact le_of_lt hwlt
                · exact hle q (heq ▸ hq) hPq
        | some bv =>
            obtain ⟨b, v⟩ := bv
            by_cases hlt : mt.avg_response_time < v
            · rw [latencyStep_pos_lt gm r₀ b v mt hgm hpos hlt] at h
              rcases ih _ r w h with ⟨hb, hall⟩ | ⟨l₁, l₂, heq, hposr, havalr, hbest, hstrict, hle⟩
              · obtain ⟨hr, hw⟩ := Prod.mk.injEq .. ▸ Option.some.inj hb
                subst hr
                refine Or.inr ⟨[], rs, by simp, ⟨mt, hgm, hpos⟩, by rw [haval₀, hw], ?_, by simp, ?_⟩
                · intro b' v' hbv
                  obtain ⟨hb', hv'⟩ := Prod.mk.injEq .. ▸ Option.some.inj hbv
                  rw [← hv', ← hw]
                  exact hlt
                · intro q hq hPq
                  rcases List.mem_cons.mp hq with hq | hq
                  · subst hq; rw [haval₀, hw]
                  · exact hall q hq hPq
              · have hwlt : w < mt.avg_response_time := hbest r₀ mt.avg_response_time rfl
                refine Or.inr ⟨r₀ :: l₁, l₂, by rw [heq]; rfl, hposr, havalr, ?_, ?_, ?_⟩
                · intro b' v' hbv
                  obtain ⟨hb', hv'⟩ := Prod.mk.injEq .. ▸ Option.some.inj hbv
                  rw [← hv']
                  exact lt_trans hwlt hlt
                · intro q hq hPq
                  rcases List.mem_cons.mp hq with hq | hq
                  · subst hq; rw [haval₀]; exact hwlt
                  · exact hstrict q hq hPq
                · intro q hq hPq
                  rcases List.mem_cons.mp hq with hq | hq
                  · subst hq; rw [haval₀]; exact le_of_lt hwlt
                  · exact hle q (heq ▸ hq) hPq
            · rw [latencyStep_pos_ge gm r₀ b v mt hgm hpos hlt] at h
              have hvle : v ≤ mt.avg_response_time := le_of_not_lt hlt
              rcases ih _ r w h with ⟨hb, hall⟩ | ⟨l₁, l₂, heq, hposr, havalr, hbest, hstrict, hle⟩
              · obtain ⟨hr, hw⟩ := Prod.mk.injEq .. ▸ Option.some.inj hb
                refine Or.inl ⟨by rw [hr, hw], ?_⟩
                intro q hq hPq
                rcases List.mem_cons.mp hq with hq | hq
                · subst hq; rw [haval₀, ← hw]; exact hvle
                · exact hall q hq hPq
              · have hwlt : w < v := hbest b v rfl
                refine Or.inr ⟨r₀ :: l₁, l₂, by rw [heq]; rfl, hposr, havalr, ?_, ?_, ?_⟩
                · intro b' v' hbv
                  obtain ⟨hb', hv'⟩ := Prod.mk.injEq .. ▸ Option.some.inj hbv
                  rw [← hv']
                  exact hwlt
                · intro q hq hPq
                  rcases List.mem_cons.mp hq with hq | hq
                  · subst hq; rw [haval₀]; exact lt_of_lt_of_le hwlt hvle
                  · exact hstrict q hq hPq
                · intro q hq hPq
                  rcases List.mem_cons.mp hq with hq | hq
                  · subst hq; rw [haval₀]; exact le_of_lt (lt_of_lt_of_le hwlt hvle)
                  · exact hle q (heq ▸ hq) hPq
      · rw [latencyStep_not_pos gm best r₀ hp] at h
        rcases ih _ r w h with ⟨hb, hall⟩ | ⟨l₁, l₂, heq, hposr, havalr, hbest, hstrict, hle⟩
        · refine Or.inl ⟨hb, ?_⟩
          intro q hq hPq
          rcases List.mem_cons.mp hq with hq | hq
          · subst hq; exact absurd hPq hp
          · exact hall q hq hPq
        · refine Or.inr ⟨r₀ :: l₁, l₂, by rw [heq]; rfl, hposr, havalr, hbest, ?_, ?_⟩
          · intro q hq hPq
            rcases List.mem_cons.mp hq with hq | hq
            · subst hq; exact absurd hPq hp
            · exact hstrict q hq hPq
          · intro q hq hPq
            rcases List.mem_cons.mp hq with hq | hq
            · subst hq; exact absurd hPq hp
            · exact hle q (heq ▸ hq) hPq

end RoutingEngine

/-- A fresh metrics record carrying a given average response time. -/
def mkMetricsAvg (avg : ℚ) : TargetMetrics :=
  { TargetMetrics.new "t" "x" with avg_response_time := avg }

/-- Tracker lookup for the spec's Latency routing example:
A(avg=0.2), B(avg=0.1), C(avg=0). -/
def gmLatEx : String → Option TargetMetrics := fun s =>
  if s = "A" then some (mkMetricsAvg (1 / 5))
  else if s = "B" then some (mkMetricsAvg (1 / 10))
  else if s = "C" then some (mkMetricsAvg 0)
  else none

/-- C6: on a non-empty candidate list, `select_by_latency` returns a
candidate; if some candidate has a metrics record with positive
`avg_response_time` the returned one is such a candidate of minimal
average, every positive candidate strictly before it being strictly worse
(first-encountered tie-breaking); if no candidate qualifies it returns the
first candidate.  On A(avg=1/5), B(avg=1/10), C(avg=0) it selects B. -/
theorem c6_latency_selection :
    (∀ (gm : String → Option TargetMetrics) (rs : List String), rs ≠ [] →
      ∃ r, RoutingEngine.select_by_latency gm rs = some r ∧ r ∈ rs
        ∧ ((∃ p ∈ rs, RoutingEngine.PosLat gm p) →
            RoutingEngine.PosLat gm r
            ∧ (∀ q ∈ rs, RoutingEngine.PosLat gm q →
                RoutingEngine.avalLat gm r ≤ RoutingEngine.avalLat gm q)
            ∧ ∃ l₁ l₂, rs = l₁ ++ r :: l₂
                ∧ (∀ q ∈ l₁, RoutingEngine.PosLat gm q →
                    RoutingEngine.avalLat gm r < RoutingEngine.avalLat gm q))
        ∧ ((∀ p ∈ rs, ¬ RoutingEngine.PosLat gm p) →
            RoutingEngine.select_by_latency gm rs = rs.head?))
    ∧ RoutingEngine.select_by_latency gmLatEx ["A", "B", "C"] = some "B" := by
  constructor
  · intro gm rs hne
    cases hf : rs.foldl (RoutingEngine.latencyStep gm) none with
    | none =>
        have hnone := (RoutingEngine.latency_fold_none gm rs none).mp hf
        rcases rs with _ | ⟨a, rs'⟩
        · exact absurd rfl hne
        · refine ⟨a, ?_, List.mem_cons_self a rs', ?_, ?_⟩
          · simp [RoutingEngine.select_by_latency, hf]
          · intro ⟨p, hp, hPp⟩
            exact absurd hPp (hnone.2 p hp)
          · intro _
            simp [RoutingEngine.select_by_latency, hf]
    | some rw =>
        obtain ⟨r, w⟩ := rw
        have hsel : RoutingEngine.select_by_latency gm rs = some r := by
          simp [RoutingEngine.select_by_latency, hf]
        rcases RoutingEngine.latency_fold_some gm rs none r w hf with
          ⟨hb, _⟩ | ⟨l₁, l₂, heq, hposr, havalr, _, hstrict, hle⟩
        · exact absurd hb (by simp)
        · refine ⟨r, hsel, by rw [heq]; simp, ?_, ?_⟩
          · intro _
            refine ⟨hposr, ?_, l₁, l₂, heq, ?_⟩
            · intro q hq hPq
              rw [havalr]
              exact hle q hq hPq
            · intro q hq hPq
              rw [havalr]
              exact hstrict q hq hPq
          · intro hall
            exact absurd hposr (hall r (by rw [heq]; simp))
  · simp only [RoutingEngine.select_by_latency, RoutingEngine.latencyStep,
      gmLatEx, mkMetricsAvg, TargetMetrics.new, List.foldl, String.reduceEq,
      if_false, ite_false, if_true, ite_true]
    norm_num

/-- C6 witness: the general conjunct applied to the example candidates. -/
theorem c6_latency_selection_witness :
    ∃ r, RoutingEngine.select_by_latency gmLatEx ["A", "B", "C"] = some r
      ∧ r ∈ ["A", "B", "C"]
      ∧ ((∃ p ∈ ["A", "B", "C"], RoutingEngine.PosLat gmLatEx p) →
          RoutingEngine.PosLat gmLatEx r
          ∧ (∀ q ∈ ["A", "B", "C"], RoutingEngine.PosLat gmLatEx q →
              RoutingEngine.avalLat gmLatEx r ≤ RoutingEngine.avalLat gmLatEx q)
          ∧ ∃ l₁ l₂, ["A", "B", "C"] = l₁ ++ r :: l₂
              ∧ (∀ q ∈ l₁, RoutingEngine.PosLat gmLatEx q →
                  RoutingEngine.avalLat gmLatEx r < RoutingEngine.avalLat gmLatEx q))
      ∧ ((∀ p ∈ ["A", "B", "C"], ¬ RoutingEngine.PosLat gmLatEx p) →
          RoutingEngine.select_by_latency gmLatEx ["A", "B", "C"]
            = (["A", "B", "C"] : List String).head?) :=
  c6_latency_selection.1 gmLatEx ["A", "B", "C"] (by simp)

namespace RoutingEngine

theorem select_round_robin_spec (rs : List String) (c : ℕ) (h : rs ≠ []) :
    (select_round_robin rs c).1 = rs.get? (c % rs.length)
    ∧ (select_round_robin rs c).2 = (c + 1) % rs.length := by
  have hlen : rs.length ≠ 0 := fun hh => h (List.length_eq_zero.mp hh)
  unfold select_round_robin
  rw [dif_neg hlen]
  exact ⟨(List.get?_eq_get (Nat.mod_lt _ (Nat.pos_of_ne_zero hlen))).symm, rfl⟩

theorem rrCalls_cursor (rs : List String) (h : rs ≠ []) :
    ∀ (k c : ℕ), (rrCalls rs c (k + 1)).1 = (c + (k + 1)) % rs.length := by
  intro k
  induction k with
  | zero =>
      intro c
      show (rrCalls rs (select_round_robin rs c).2 0).1 = (c + 1) % rs.length
      rw [(select_round_robin_spec rs c h).2]
      rfl
  | succ k ih =>
      intro c
      show (rrCalls rs (select_round_robin rs c).2 (k + 1)).1 = (c + (k + 2)) % rs.length
      rw [(select_round_robin_spec rs c h).2, ih, Nat.mod_add_mod]
      congr 1
      omega

theorem rrCalls_selections (rs : List String) (h : rs ≠ []) :
    ∀ (k c : ℕ), (rrCalls rs c k).2
      = (List.range k).map (fun j => rs.get? ((c + j) % rs.length)) := by
  intro k
  induction k with
  | zero => intro c; rfl
  | succ k ih =>
      intro c
      show (select_round_robin rs c).1 :: (rrCalls rs (select_round_robin rs c).2 k).2
          = (List.range (k + 1)).map (fun j => rs.get? ((c + j) % rs.length))
      rw [List.range_succ_eq_map, List.map_cons, List.map_map,
        (select_round_robin_spec rs c h).1, ih, (select_round_robin_spec rs c h).2]
      congr 1
      · refine List.map_congr_left ?_
        intro a _
        show rs.get? (((c + 1) % rs.length + a) % rs.length)
            = rs.get? ((c + a.succ) % rs.length)
        rw [Nat.mod_add_mod, (by omega : c + 1 + a = c + a.succ)]

theorem countP_mod_range (C i : ℕ) (hC : 0 < C) (hi : i < C) :
    ∀ K, (List.range K).countP (fun k => decide (k % C = i))
      = K / C + (if i < K % C then 1 else 0) := by
  intro K
  induction K with
  | zero => simp
  | succ K ih =>
      rw [List.range_succ, List.countP_append, ih, List.countP_singleton]
      have hdm : C * (K / C) + K % C = K := Nat.div_add_mod K C
      have hmlt : K % C < C := Nat.mod_lt K hC
      have hsd : (K + 1) / C = K / C + if C ∣ K + 1 then 1 else 0 := Nat.succ_div K C
      by_cases hdvd : C ∣ K + 1
      · rw [if_pos hdvd] at hsd
        have hm0 : (K + 1) % C = 0 := Nat.mod_eq_zero_of_dvd hdvd
        have hdm1 : C * (K / C + 1) + (K + 1) % C = K + 1 := by
          rw [← hsd]
          exact Nat.div_add_mod (K + 1) C
        rw [Nat.mul_succ] at hdm1
        have hkm : K % C = C - 1 := by omega
        rw [hsd, hm0, hkm]
        simp only [decide_eq_true_eq]
        split_ifs <;> omega
      · rw [if_neg hdvd] at hsd
        have hdm1 := Nat.div_add_mod (K + 1) C
        rw [hsd] at hdm1
        have hdm1a : C * (K / C) + (K + 1) % C = K + 1 := by simpa using hdm1
        have hm1 : (K + 1) % C = K % C + 1 := by omega
        rw [hsd, hm1]
        simp only [decide_eq_true_eq]
        split_ifs <;> omega

end RoutingEngine

namespace RoutingEngine

theorem ceil_div_of_mod_ne_zero (K C : ℕ) (hC : 0 < C) (hr : K % C ≠ 0) :
    (K + C - 1) / C = K / C + 1 := by
  have hdm := Nat.div_add_mod K C
  have hmlt : K % C < C := Nat.mod_lt K hC
  have hexp : C * (K / C + 1) = C * (K / C) + C := Nat.mul_succ C (K / C)
  have heq : K + C - 1 = (K % C - 1) + C * (K / C + 1) := by omega
  rw [heq, Nat.add_mul_div_left _ _ hC, Nat.div_eq_of_lt (by omega)]
  omega

end RoutingEngine

/-- C7: `select_round_robin` returns `candidates[c mod len]` and writes back
`(c+1) mod len`; over `K` calls from a fresh cursor the k-th call selects
`candidates[k mod len]`, the cursor ends at `K mod len`, each distinct
candidate is selected exactly `⌊K/C⌋` or `⌈K/C⌉ = (K+C-1)/C` times, and with
3 candidates and 7 calls the cursor ends at 1. -/
theorem c7_round_robin :
    (∀ (rs : List String) (c : ℕ), rs ≠ [] →
        (RoutingEngine.select_round_robin rs c).1 = rs.get? (c % rs.length)
        ∧ (RoutingEngine.select_round_robin rs c).2 = (c + 1) % rs.length)
    ∧ (∀ (rs : List String) (K : ℕ), rs ≠ [] →
        (RoutingEngine.rrCalls rs 0 K).1 = K % rs.length
        ∧ (RoutingEngine.rrCalls rs 0 K).2
            = (List.range K).map (fun k => rs.get? (k % rs.length)))
    ∧ (∀ (rs : List String) (K i : ℕ), rs.Nodup → i < rs.length →
        ((RoutingEngine.rrCalls rs 0 K).2.countP (fun s => decide (s = rs.get? i))
            = K / rs.length
         ∨ (RoutingEngine.rrCalls rs 0 K).2.countP (fun s => decide (s = rs.get? i))
            = (K + rs.length - 1) / rs.length))
    ∧ (RoutingEngine.rrCalls ["a", "b", "c"] 0 7).1 = 1 := by
  have hsel := RoutingEngine.select_round_robin_spec
  have hrun : ∀ (rs : List String) (K : ℕ), rs ≠ [] →
      (RoutingEngine.rrCalls rs 0 K).1 = K % rs.length
      ∧ (RoutingEngine.rrCalls rs 0 K).2
          = (List.range K).map (fun k => rs.get? (k % rs.length)) := by
    intro rs K h
    constructor
    · cases K with
      | zero => simp [RoutingEngine.rrCalls]
      | succ k =>
          rw [RoutingEngine.rrCalls_cursor rs h k 0]
          norm_num
    · rw [RoutingEngine.rrCalls_selections rs h K 0]
      refine List.map_congr_left ?_
      intro a _
      norm_num
  refine ⟨hsel, hrun, ?_, by decide⟩
  intro rs K i hnodup hi
  have hne : rs ≠ [] := by
    intro hh
    rw [hh] at hi
    simp at hi
  have hC : 0 < rs.length := List.length_pos.mpr hne
  rw [(hrun rs K hne).2, List.countP_map]
  have hcong : (List.range K).countP
        ((fun s => decide (s = rs.get? i)) ∘ (fun k => rs.get? (k % rs.length)))
      = (List.range K).countP (fun k => decide (k % rs.length = i)) := by
    refine List.countP_congr ?_
    intro k _
    simp only [Function.comp, decide_eq_true_eq]
    constructor
    · intro hg
      exact List.get?_inj (Nat.mod_lt k hC) hnodup hg
    · intro hg
      rw [hg]
  rw [hcong, RoutingEngine.countP_mod_range rs.length i hC hi K]
  by_cases hlt : i < K % rs.length
  · rw [if_pos hlt]
    right
    rw [RoutingEngine.ceil_div_of_mod_ne_zero K rs.length hC (by omega)]
  · rw [if_neg hlt]
    left
    rfl

/-- C7 witness: all general conjuncts applied at concrete inputs:
two distinct candidates, cursor 5, seven calls. -/
theorem c7_round_robin_witness :
    ((RoutingEngine.select_round_robin ["a", "b"] 5).1
        = (["a", "b"] : List String).get? (5 % 2)
      ∧ (RoutingEngine.select_round_robin ["a", "b"] 5).2 = 6 % 2)
    ∧ ((RoutingEngine.rrCalls ["a", "b"] 0 7).1 = 7 % 2
      ∧ (RoutingEngine.rrCalls ["a", "b"] 0 7).2
          = (List.range 7).map (fun k => (["a", "b"] : List String).get? (k % 2)))
    ∧ ((RoutingEngine.rrCalls ["a", "b"] 0 7).2.countP
          (fun s => decide (s = (["a", "b"] : List String).get? 0)) = 7 / 2
       ∨ (RoutingEngine.rrCalls ["a", "b"] 0 7).2.countP
          (fun s => decide (s = (["a", "b"] : List String).get? 0)) = (7 + 2 - 1) / 2) :=
  ⟨c7_round_robin.1 ["a", "b"] 5 (by decide),
   c7_round_robin.2.1 ["a", "b"] 7 (by decide),
   c7_round_robin.2.2.1 ["a", "b"] 7 0 (by decide) (by decide)⟩
